import Mathlib

/-!
Shallow embedding of `src/puzzle-upload/Netlify/functions/upload-image.mjs`.

JavaScript strings are sequences of UTF-16 code units; we model them as
`List Nat` of code-unit values, which keeps every character test a plain
arithmetic comparison.  `String.prototype.toLowerCase` is modelled on the
ASCII range (the only range the handler's comparisons, allow-list strings
and regexes touch).
-/

namespace PuzzleUpload

/-- A JS string as its list of UTF-16 code-unit values. -/
abbrev Str := List Nat

/-- Embed a Lean string literal as a `Str` (all literals used are ASCII). -/
def str (s : String) : Str := s.toList.map Char.toNat

/-- ASCII model of `String.prototype.toLowerCase`, per code unit. -/
def jsToLower (n : Nat) : Nat := if 65 ≤ n ∧ n ≤ 90 then n + 32 else n

/-- `s.startsWith p` on JS strings. -/
def startsWithStr (p s : Str) : Bool := s.take p.length == p

/-- `s.includes n` on JS strings: `n` occurs as a contiguous run in `s`. -/
def containsSub (n : Str) : Str → Bool
  | [] => startsWithStr n []
  | c :: rest => startsWithStr n (c :: rest) || containsSub n rest

/--
`SAFE_IMAGE_MIME` (src lines 8–19): lower-case the declared type, default
absent or non-`image/` types to `image/jpeg`, send heic/heif to
`image/jpeg`, then match the substrings webp/png/gif/bmp/tif in order,
defaulting to `image/jpeg`.
-/
def SAFE_IMAGE_MIME (mt0 : Str) : Str :=
  if mt0 = [] then str "image/jpeg" else
  let mt := mt0.map jsToLower
  if ¬ startsWithStr (str "image/") mt then str "image/jpeg" else
  if containsSub (str "heic") mt || containsSub (str "heif") mt then str "image/jpeg" else
  if containsSub (str "webp") mt then str "image/webp" else
  if containsSub (str "png") mt then str "image/png" else
  if containsSub (str "gif") mt then str "image/gif" else
  if containsSub (str "bmp") mt then str "image/bmp" else
  if containsSub (str "tif") mt then str "image/tiff" else
  str "image/jpeg"

/-- Code units allowed by the regex class `[a-z0-9]` with the `i` flag. -/
def isAlnumCI (n : Nat) : Bool :=
  (97 ≤ n && n ≤ 122) || (65 ≤ n && n ≤ 90) || (48 ≤ n && n ≤ 57)

/-- Code units kept by the class `[^a-z0-9\-_.]` (with `i`): alphanumerics
of either case, `-` (45), `_` (95), `.` (46). -/
def isSafeChar (n : Nat) : Bool := isAlnumCI n || n == 45 || n == 95 || n == 46

/-- The separator class `[-_.]` used by the trimming regex. -/
def isSep (n : Nat) : Bool := n == 45 || n == 95 || n == 46

/-- `s.split(sep).pop()`: the substring after the last occurrence of `sep`
(the whole string when `sep` does not occur). -/
def afterLast (sep : Nat) (s : Str) : Str :=
  (s.reverse.takeWhile (fun c => c ≠ sep)).reverse

/--
The regex `\.([a-z0-9]{2,5})$/i`: matches iff the maximal trailing
alphanumeric run has length 2–5 and is preceded by a dot; returns the
captured run (in source order, original case).
-/
def extMatch (s : Str) : Option Str :=
  let run := s.reverse.takeWhile isAlnumCI
  if 2 ≤ run.length ∧ run.length ≤ 5 ∧ (s.reverse.drop run.length).head? = some 46
  then some run.reverse else none

/-- One character step of `replace(/[^a-z0-9\-_.]+/gi, "-")`: a disallowed
code unit becomes `-`.  (Replacing each maximal disallowed run by one `-`
followed by collapsing `-` runs equals mapping each disallowed unit to `-`
and then collapsing, which is how the next two stages compose.) -/
def sanitizeChar (n : Nat) : Nat := if isSafeChar n then n else 45

/-- The global replace of the regex "one or more dashes" by a single dash:
collapse each run of `-` to a single `-`. -/
def collapseDashes : Str → Str
  | [] => []
  | [c] => [c]
  | a :: b :: r =>
      if a = 45 ∧ b = 45 then collapseDashes (b :: r)
      else a :: collapseDashes (b :: r)

/-- Remove the trailing run of `[-_.]`. -/
def dropTrailSeps (s : Str) : Str := (s.reverse.dropWhile isSep).reverse

/-- `replace(/^[-_.]+|[-_.]+$/g, "")`: trim leading and trailing `[-_.]` runs. -/
def trimSeps (s : Str) : Str := dropTrailSeps (s.dropWhile isSep)

/-- Src lines 22–23: default an empty name, then strip path components
(everything up to the last `/` (47) and the last backslash (92)). -/
def normName (name0 fallbackExt : Str) : Str :=
  afterLast 92 (afterLast 47 (if name0 = [] then str "upload" ++ fallbackExt else name0))

/-- Src lines 24–26: the extension — the lower-cased captured group of the
extension regex prefixed by `.` (46), or `fallbackExt`; heic-family
extensions are rewritten to `.jpg`. -/
def extFor (name fallbackExt : Str) : Str :=
  let ext0 := match extMatch name with
    | some run => 46 :: run.map jsToLower
    | none => fallbackExt
  if ext0 = str ".heic" ∨ ext0 = str ".heif" ∨ ext0 = str ".heifs"
  then str ".jpg" else ext0

/-- Src line 27: the name with the extension match (dot included) removed. -/
def strippedFor (name : Str) : Str :=
  match extMatch name with
  | some run => (name.reverse.drop (run.length + 1)).reverse
  | none => name

/-- Src line 28: disallowed units to `-`, collapse `-` runs, trim `[-_.]`
runs at both ends. -/
def slugBase (s : Str) : Str := trimSeps (collapseDashes (s.map sanitizeChar))

/-- Src lines 28–30: the slugified base, defaulted to `upload` when empty
and truncated to 80 units. -/
def baseFor (name : Str) : Str :=
  let b1 := slugBase (strippedFor name)
  let b2 := if b1 = [] then str "upload" else b1
  if 80 < b2.length then b2.take 80 else b2

/--
`SAFE_FILENAME` (src lines 21–32): default empty names, strip path
components, split off a 2–5 character alphanumeric extension (falling back
to `fallbackExt`), rewrite heic-family extensions to `.jpg`, slugify the
base, default an empty base to `upload`, truncate the base to 80 units.
-/
def SAFE_FILENAME (name0 : Str) (fallbackExt : Str) : Str :=
  baseFor (normName name0 fallbackExt) ++ extFor (normName name0 fallbackExt) fallbackExt

/-- `String(n)` for the byte counter. -/
def natToStr (n : Nat) : Str := str (toString n)

/-! ## The Netlify event, multipart parse, and remote pipeline

The handler's effects (the three remote calls, and the `unlinkSync` of the
scratch file) are made explicit: remote responses are inputs drawn from an
`Oracle`, and the result records each call's payload (`none` = the call was
never attempted) plus whether the scratch file was deleted.
-/

/-- One file part of a multipart body, as busboy would surface it. -/
structure FilePart where
  fieldName : Str
  filename : Str
  mimeType : Str
  contentLen : Nat
deriving DecidableEq, Repr

/-- The record `parseMultipart` resolves with (src line 96). -/
structure Parsed where
  filepath : Str
  filename : Str
  mimetype : Str
  size : Nat
deriving DecidableEq, Repr

/--
`parseMultipart` (src lines 82–102): busboy emits one `file` event per file
part of the body, in order; the callback (src lines 88–95) binds the part's
field name but never reads it, overwrites `filepath`/`filename`/`mimetype`
on each event, and accumulates `size` across all events.  The scratch path
is a fresh temp-dir name; only its non-emptiness matters downstream, so it
is modelled by a fixed non-empty string.
-/
def pmStep (acc : Parsed) (p : FilePart) : Parsed :=
  { filepath := str "tmp-scratch", filename := p.filename,
    mimetype := p.mimeType, size := acc.size + p.contentLen }

/-- The full parse: fold `pmStep` over the body's file parts, starting
from the empty bindings of src line 86. -/
def parseMultipart (parts : List FilePart) : Parsed :=
  parts.foldl pmStep { filepath := [], filename := [], mimetype := [], size := 0 }

/-- A user-level error of a GraphQL payload. -/
structure UserError where
  message : Str
deriving DecidableEq, Repr

/-- One name/value form parameter of a staged target. -/
structure StagedParam where
  name : Str
  value : Str
deriving DecidableEq, Repr

/-- One staged target of `stagedUploadsCreate`. -/
structure StagedTarget where
  url : Str
  resourceUrl : Str
  parameters : List StagedParam
deriving DecidableEq, Repr

/-- The `stagedUploadsCreate` payload (remote call 1). -/
structure StagedResp where
  stagedTargets : List StagedTarget
  userErrors : List UserError
deriving DecidableEq, Repr

/-- A node of `filesCreate.files`: `__typename`, `id`, `image.url` for
`MediaImage` (absent when `image` is null), `url` for `GenericFile`. -/
structure FileNode where
  typename : Str
  id : Str
  imageUrl : Option Str
  url : Option Str
deriving DecidableEq, Repr

/-- The `filesCreate` payload (remote call 3). -/
structure FilesResp where
  files : List FileNode
  userErrors : List UserError
deriving DecidableEq, Repr

/-- The binary POST's response (remote call 2): `ok`, `status`, body text. -/
structure PostResp where
  ok : Bool
  status : Nat
  text : Str
deriving DecidableEq, Repr

/-- The three remote responses a run of the handler would observe.  A
`GQL` call (src lines 34–48) either throws (HTTP error or top-level
`errors`) — the `Except.error` case, carrying the thrown message — or
returns its data. -/
structure Oracle where
  staged : Except Str StagedResp
  post : PostResp
  files : Except Str FilesResp

/-- The JSON body of a handler response. -/
inductive Body where
  | errorMsg (msg : Str)
  | success (url : Str) (id : Str) (filename : Str) (mimeType : Str)
deriving DecidableEq, Repr

/-- An HTTP response of the handler (`none` body = no `body` field). -/
structure Response where
  statusCode : Nat
  body : Option Body
deriving DecidableEq, Repr

/-- The variables of remote call 1 (src line 129). -/
structure StagedInput where
  resource : Str
  filename : Str
  mimeType : Str
  httpMethod : Str
  fileSize : Str
deriving DecidableEq, Repr

/-- The payload of remote call 2 (src lines 136–139): the staged URL, the
replayed parameters in order, and the appended `file` field's name,
filename and content type. -/
structure PostReq where
  url : Str
  params : List StagedParam
  fileFieldName : Str
  fileName : Str
  fileType : Str
deriving DecidableEq, Repr

/-- The variables of remote call 3 (src line 147). -/
structure FilesInput where
  originalSource : Str
  contentType : Str
  alt : Str
  fileName : Str
deriving DecidableEq, Repr

/-- One run's observable outcome: the response, the payload of each remote
call that was attempted, and whether the scratch file was unlinked. -/
structure HandlerResult where
  response : Response
  call1 : Option StagedInput
  call2 : Option PostReq
  call3 : Option FilesInput
  unlinked : Bool
deriving DecidableEq, Repr

/-- The incoming Netlify event: its HTTP method, and whether each of the
two required environment variables is set. -/
structure Event where
  httpMethod : Str
  hasStore : Bool
  hasToken : Bool
deriving DecidableEq, Repr

/-- The message thrown at src line 133: JS falsiness makes both a missing
user error and a user error with an empty message fall back to the fixed
`Failed stagedUploadsCreate` string. -/
def stagedErrMsg (err1 : Option UserError) : Str :=
  match err1 with
  | some e1 => if e1.message = [] then str "Failed stagedUploadsCreate" else e1.message
  | none => str "Failed stagedUploadsCreate"

/-- The catch block's message rewrite (src lines 162–164): a message
matching the case-insensitive regex "did not match the expected pattern"
becomes a fixed hint; an empty message becomes "Upload failed". -/
def rewriteError (msg : Str) : Str :=
  if containsSub (str "did not match the expected pattern") (msg.map jsToLower)
  then str "Shopify rejected the upload data format (likely MIME/filename). Try JPG/PNG and a simple filename."
  else if msg = [] then str "Upload failed" else msg

/-- A 500 response from the catch block, with the calls attempted so far;
no exit through the catch block unlinks the scratch file. -/
def failWith (msg : Str) (c1 : Option StagedInput) (c2 : Option PostReq)
    (c3 : Option FilesInput) : HandlerResult :=
  { response := { statusCode := 500, body := some (.errorMsg (rewriteError msg)) },
    call1 := c1, call2 := c2, call3 := c3, unlinked := false }

/-- The url selection on the created node (src lines 153–155): JS `&&`/`||`
falsiness makes an empty url string fall through to the next alternative. -/
def truthy : Option Str → Option Str
  | some s => if s = [] then none else some s
  | none => none

/-- `node.image?.url` when the node is a `MediaImage`, else `node.url` when
a `GenericFile`, else null (src lines 153–155). -/
def nodeUrl (n : FileNode) : Option Str :=
  match truthy (if n.typename = str "MediaImage" then n.imageUrl else none) with
  | some u => some u
  | none =>
    match truthy (if n.typename = str "GenericFile" then n.url else none) with
    | some u => some u
    | none => none

/--
`handler` (src lines 105–167), as a function of the event, the multipart
parse outcome (`Except.error` = busboy rejected) and the remote oracle.
Every throw inside the `try` lands in the catch block = `failWith`.
-/
def handler (ev : Event) (parse : Except Str Parsed) (o : Oracle) : HandlerResult :=
  if ev.httpMethod = str "OPTIONS" then
    { response := { statusCode := 200, body := none },
      call1 := none, call2 := none, call3 := none, unlinked := false }
  else if ev.httpMethod ≠ str "POST" then
    { response := { statusCode := 405, body := some (.errorMsg (str "Method not allowed")) },
      call1 := none, call2 := none, call3 := none, unlinked := false }
  else if ¬ (ev.hasStore ∧ ev.hasToken) then
    { response := { statusCode := 500, body := some (.errorMsg (str "Missing Shopify env vars")) },
      call1 := none, call2 := none, call3 := none, unlinked := false }
  else
    match parse with
    | .error e => failWith e none none none
    | .ok p =>
      if p.filepath = [] then failWith (str "No file uploaded") none none none
      else
        let mimeType := SAFE_IMAGE_MIME p.mimetype
        let safeName := SAFE_FILENAME p.filename (str ".jpg")
        let fileSize := natToStr p.size
        let c1 : StagedInput :=
          { resource := str "IMAGE", filename := safeName, mimeType := mimeType,
            httpMethod := str "POST", fileSize := fileSize }
        match o.staged with
        | .error e => failWith e (some c1) none none
        | .ok staged =>
          match staged.stagedTargets.head?, staged.userErrors.head? with
          | none, e1 => failWith (stagedErrMsg e1) (some c1) none none
          | some _, some e1 => failWith (stagedErrMsg (some e1)) (some c1) none none
          | some target, none =>
            let c2 : PostReq :=
              { url := target.url, params := target.parameters,
                fileFieldName := str "file", fileName := safeName, fileType := mimeType }
            if ¬ o.post.ok then
              failWith (str "Staged upload failed: " ++ natToStr o.post.status ++ [32] ++ o.post.text)
                (some c1) (some c2) none
            else
              let c3 : FilesInput :=
                { originalSource := target.resourceUrl, contentType := str "IMAGE",
                  alt := safeName, fileName := safeName }
              match o.files with
              | .error e => failWith e (some c1) (some c2) (some c3)
              | .ok created =>
                match created.userErrors.head? with
                | some e2 => failWith e2.message (some c1) (some c2) (some c3)
                | none =>
                  match created.files.head? with
                  | none => failWith (str "No URL on created file") (some c1) (some c2) (some c3)
                  | some node =>
                    match nodeUrl node with
                    | none => failWith (str "No URL on created file") (some c1) (some c2) (some c3)
                    | some url =>
                      let resp : Response :=
                        { statusCode := 200, body := some (.success url node.id safeName mimeType) }
                      { response := resp, call1 := some c1, call2 := some c2,
                        call3 := some c3, unlinked := true }

/-! ## Claim-side definitions

These two follow the SPEC's words (the claimed output pattern of the
filename sanitizer), for comparison against the embedded code. -/

/-- Claim-side: a unit allowed by the spec's character class, lowercase
letters, digits, `-`, `_`, `.` only. -/
def lowerPatChar (n : Nat) : Bool :=
  (97 ≤ n && n ≤ 122) || (48 ≤ n && n ≤ 57) || n == 45 || n == 95 || n == 46

/-- Claim-side: the spec's claimed output pattern for `SAFE_FILENAME`,
lowercase-only character class with total length between 1 and 84. -/
def matchesClaimedPattern (s : Str) : Bool :=
  s.all lowerPatChar && decide (1 ≤ s.length) && decide (s.length ≤ 84)

/-! ## Verification-side predicates -/

/-- A lowercase alphanumeric code unit. -/
def isLowerAlnum (n : Nat) : Bool := (97 ≤ n && n ≤ 122) || (48 ≤ n && n ≤ 57)

/-- No two adjacent dashes (45) anywhere in the list. -/
def noDD : Str → Bool
  | [] => true
  | [_] => true
  | a :: b :: r => !(a == 45 && b == 45) && noDD (b :: r)

/-! ## Concrete fixtures (counterexample and witness inputs) -/

/-- A well-formed POST event with both environment variables present. -/
def evPost : Event := { httpMethod := str "POST", hasStore := true, hasToken := true }

/-- A GET event. -/
def evGet : Event := { httpMethod := str "GET", hasStore := true, hasToken := true }

/-- A parse result for a 10-byte `test.jpg` upload. -/
def parsedOk : Parsed :=
  { filepath := str "tmp-scratch", filename := str "test.jpg",
    mimetype := str "image/jpeg", size := 10 }

/-- A parse result of a body with no file part: `filepath` stays empty. -/
def parsedNoFile : Parsed := { filepath := [], filename := [], mimetype := [], size := 0 }

/-- A staged target with one replay parameter. -/
def goodTarget : StagedTarget :=
  { url := str "https://staged.example/upload", resourceUrl := str "https://resource.example/r",
    parameters := [{ name := str "key", value := str "v" }] }

/-- A successful `stagedUploadsCreate` payload. -/
def goodStaged : StagedResp := { stagedTargets := [goodTarget], userErrors := [] }

/-- A created `MediaImage` node with a URL. -/
def goodNode : FileNode :=
  { typename := str "MediaImage", id := str "gid-1",
    imageUrl := some (str "https://cdn.example/x.jpg"), url := none }

/-- An oracle where all three remote calls succeed. -/
def oracleOk : Oracle :=
  { staged := .ok goodStaged, post := { ok := true, status := 204, text := [] },
    files := .ok { files := [goodNode], userErrors := [] } }

/-- An oracle where the binary POST is refused with HTTP 403. -/
def oracle403 : Oracle :=
  { oracleOk with post := { ok := false, status := 403, text := str "Forbidden" } }

/-- The remote user-error message that the catch block's regex matches. -/
def patternMsg : Str := str "Filename did not match the expected pattern"

/-- A `stagedUploadsCreate` payload carrying that user error. -/
def ueStaged : StagedResp :=
  { stagedTargets := [goodTarget], userErrors := [{ message := patternMsg }] }

/-- An oracle where `stagedUploadsCreate` returns a user error whose
message matches the catch block's rewrite pattern. -/
def oracleUE : Oracle := { oracleOk with staged := .ok ueStaged }

/-- A multipart body holding a single file part bound to field name
`avatar` (not `file`). -/
def avatarParts : List FilePart :=
  [{ fieldName := str "avatar", filename := str "cat.png",
     mimeType := str "image/png", contentLen := 3 }]

/-- A name whose sanitized output has length 86 and an uppercase letter. -/
def longName : Str := 65 :: (List.replicate 80 97 ++ str ".abcde")

/-- A name whose 81-unit base is truncated to one ending in a dash. -/
def dashName : Str := List.replicate 79 97 ++ str "-a.jpg"

/-! ## Lemmas on the slug pipeline -/

theorem sanitizeChar_safe (n : Nat) : isSafeChar (sanitizeChar n) = true := by
  unfold sanitizeChar
  split
  · assumption
  · decide

theorem collapseDashes_sublist (s : Str) : List.Sublist (collapseDashes s) s := by
  induction s using collapseDashes.induct with
  | case1 => simp [collapseDashes]
  | case2 c => simp [collapseDashes]
  | case3 a b r hab ih =>
      rw [collapseDashes, if_pos hab]
      exact ih.trans (List.sublist_cons_self a (b :: r))
  | case4 a b r hab ih =>
      rw [collapseDashes, if_neg hab]
      exact ih.cons₂ a

theorem head?_collapseDashes (s : Str) : (collapseDashes s).head? = s.head? := by
  induction s using collapseDashes.induct with
  | case1 => rfl
  | case2 c => rfl
  | case3 a b r hab ih =>
      rw [collapseDashes, if_pos hab, ih]
      simp [hab.1, hab.2]
  | case4 a b r hab ih => rw [collapseDashes, if_neg hab]; rfl

theorem noDD_collapseDashes (s : Str) : noDD (collapseDashes s) = true := by
  induction s using collapseDashes.induct with
  | case1 => rfl
  | case2 c => rfl
  | case3 a b r hab ih => rw [collapseDashes, if_pos hab]; exact ih
  | case4 a b r hab ih =>
      rw [collapseDashes, if_neg hab]
      have hhd := head?_collapseDashes (b :: r)
      cases hc : collapseDashes (b :: r) with
      | nil => rfl
      | cons x xs =>
          rw [hc] at ih hhd
          have hxb : x = b := by
            simp only [List.head?] at hhd
            injection hhd
          have hf : (a == 45 && x == 45) = false := by
            rw [hxb]
            by_cases ha : a = 45
            · by_cases hb : b = 45
              · exact absurd ⟨ha, hb⟩ hab
              · simp [hb]
            · simp [ha]
          simp [noDD, hf, ih]

theorem noDD_fixes (s : Str) (h : noDD s = true) : collapseDashes s = s := by
  induction s using collapseDashes.induct with
  | case1 => rfl
  | case2 c => rfl
  | case3 a b r hab ih =>
      exfalso
      simp only [noDD, Bool.and_eq_true, Bool.not_eq_true', Bool.and_eq_false_imp] at h
      exact absurd (h.1 (by simp [hab.1])) (by simp [hab.2])
  | case4 a b r hab ih =>
      rw [collapseDashes, if_neg hab]
      simp only [noDD, Bool.and_eq_true] at h
      rw [ih h.2]

theorem noDD_tail (a : Nat) (l : Str) (h : noDD (a :: l) = true) : noDD l = true := by
  cases l with
  | nil => rfl
  | cons b r => simp only [noDD, Bool.and_eq_true] at h; exact h.2

theorem noDD_append_right (l₁ l₂ : Str) (h : noDD (l₁ ++ l₂) = true) : noDD l₂ = true := by
  induction l₁ with
  | nil => exact h
  | cons a t ih => exact ih (noDD_tail a (t ++ l₂) h)

theorem noDD_append_left (l₁ l₂ : Str) (h : noDD (l₁ ++ l₂) = true) : noDD l₁ = true := by
  induction l₁ with
  | nil => rfl
  | cons a t ih =>
      cases t with
      | nil => rfl
      | cons b r =>
          simp only [List.cons_append, noDD, Bool.and_eq_true] at h ⊢
          exact ⟨h.1, ih h.2⟩

theorem dropTrailSeps_pre (s : Str) : dropTrailSeps s <+: s := by
  refine ⟨(s.reverse.takeWhile isSep).reverse, ?_⟩
  rw [dropTrailSeps, ← List.reverse_append, List.takeWhile_append_dropWhile,
    List.reverse_reverse]

theorem trimSeps_sublist (s : Str) : List.Sublist (trimSeps s) s := by
  have h1 : List.Sublist (trimSeps s) (s.dropWhile isSep) :=
    (dropTrailSeps_pre (s.dropWhile isSep)).sublist
  exact h1.trans (List.dropWhile_suffix isSep).sublist

theorem noDD_trimSeps (s : Str) (h : noDD s = true) : noDD (trimSeps s) = true := by
  have h1 : noDD (s.dropWhile isSep) = true := by
    obtain ⟨pre, hpre⟩ := List.dropWhile_suffix (l := s) isSep
    exact noDD_append_right pre _ (by rw [hpre]; exact h)
  obtain ⟨post, hpost⟩ := dropTrailSeps_pre (s.dropWhile isSep)
  exact noDD_append_left _ post (by rw [trimSeps, hpost]; exact h1)

theorem dw_head (p : Nat → Bool) (l : Str) (x : Nat)
    (h : (l.dropWhile p).head? = some x) : p x = false := by
  induction l with
  | nil => simp at h
  | cons a t ih =>
      rw [List.dropWhile_cons] at h
      by_cases ha : p a = true
      · exact ih (by rwa [if_pos ha] at h)
      · rw [if_neg ha] at h
        simp only [List.head?] at h
        have hxa : x = a := by injection h; omega
        rw [hxa]
        exact Bool.eq_false_iff.mpr ha

theorem isPre_head (l t : Str) (h : t <+: l) (x : Nat) (hx : t.head? = some x) :
    l.head? = some x := by
  obtain ⟨post, rfl⟩ := h
  cases t with
  | nil => simp at hx
  | cons a r => simpa using hx

theorem trimSeps_head (s : Str) (x : Nat) (h : (trimSeps s).head? = some x) :
    isSep x = false := by
  have hpre := dropTrailSeps_pre (s.dropWhile isSep)
  exact dw_head isSep s x (isPre_head _ _ hpre x h)

theorem trimSeps_getLast (s : Str) (x : Nat) (h : (trimSeps s).getLast? = some x) :
    isSep x = false := by
  rw [trimSeps, dropTrailSeps, List.getLast?_reverse] at h
  exact dw_head isSep _ x h

theorem dw_fix (p : Nat → Bool) (l : Str) (h : ∀ x, l.head? = some x → p x = false) :
    l.dropWhile p = l := by
  cases l with
  | nil => rfl
  | cons a t => rw [List.dropWhile_cons, if_neg (by simp [h a rfl])]

theorem dropTrailSeps_fix (l : Str) (h : ∀ x, l.getLast? = some x → isSep x = false) :
    dropTrailSeps l = l := by
  rw [dropTrailSeps,
    dw_fix isSep l.reverse (fun x hx => h x (by rwa [List.head?_reverse] at hx)),
    List.reverse_reverse]

theorem trimSeps_fix (l : Str) (h1 : ∀ x, l.head? = some x → isSep x = false)
    (h2 : ∀ x, l.getLast? = some x → isSep x = false) : trimSeps l = l := by
  rw [trimSeps, dw_fix isSep l h1, dropTrailSeps_fix l h2]

theorem all_slugBase (s : Str) : (slugBase s).all isSafeChar = true := by
  rw [List.all_eq_true]
  intro x hx
  have hx1 : x ∈ collapseDashes (s.map sanitizeChar) := (trimSeps_sublist _).subset hx
  have hx2 : x ∈ s.map sanitizeChar := (collapseDashes_sublist _).subset hx1
  obtain ⟨y, _, rfl⟩ := List.mem_map.mp hx2
  exact sanitizeChar_safe y

theorem noDD_slugBase (s : Str) : noDD (slugBase s) = true :=
  noDD_trimSeps _ (noDD_collapseDashes _)

theorem slug_head (s : Str) (x : Nat) (h : (slugBase s).head? = some x) : isSep x = false :=
  trimSeps_head _ x h

theorem slug_last (s : Str) (x : Nat) (h : (slugBase s).getLast? = some x) : isSep x = false :=
  trimSeps_getLast _ x h

theorem map_sanitize_fix (s : Str) (h : s.all isSafeChar = true) : s.map sanitizeChar = s := by
  have hpt : ∀ x ∈ s, sanitizeChar x = x := by
    intro x hx
    unfold sanitizeChar
    rw [if_pos (by simp [List.all_eq_true.mp h x hx])]
  calc s.map sanitizeChar = s.map id := List.map_congr_left hpt
    _ = s := List.map_id s

theorem slugBase_fix (s : Str) (hall : s.all isSafeChar = true) (hdd : noDD s = true)
    (hh : ∀ x, s.head? = some x → isSep x = false)
    (hl : ∀ x, s.getLast? = some x → isSep x = false) : slugBase s = s := by
  rw [slugBase, map_sanitize_fix s hall, noDD_fixes s hdd, trimSeps_fix s hh hl]

theorem slugBase_idem (s : Str) : slugBase (slugBase s) = slugBase s :=
  slugBase_fix _ (all_slugBase s) (noDD_slugBase s) (slug_head s) (slug_last s)

theorem slugBase_len (s : Str) : (slugBase s).length ≤ s.length := by
  have h1 := (trimSeps_sublist (collapseDashes (s.map sanitizeChar))).length_le
  have h2 := (collapseDashes_sublist (s.map sanitizeChar)).length_le
  calc (slugBase s).length ≤ (collapseDashes (s.map sanitizeChar)).length := h1
    _ ≤ (s.map sanitizeChar).length := h2
    _ = s.length := List.length_map s sanitizeChar

theorem all_take (s : Str) (p : Nat → Bool) (h : s.all p = true) (n : Nat) :
    (s.take n).all p = true := by
  rw [List.all_eq_true] at h ⊢
  exact fun x hx => h x ((List.take_sublist n s).subset hx)

theorem baseFor_props (n : Str) :
    (baseFor n).all isSafeChar = true ∧ 1 ≤ (baseFor n).length ∧ (baseFor n).length ≤ 80 := by
  simp only [baseFor]
  by_cases h0 : slugBase (strippedFor n) = []
  · rw [if_pos h0]
    decide
  · rw [if_neg h0]
    by_cases h80 : 80 < (slugBase (strippedFor n)).length
    · rw [if_pos h80]
      refine ⟨all_take _ isSafeChar (all_slugBase _) 80, ?_, ?_⟩
      · rw [List.length_take]; omega
      · rw [List.length_take]; omega
    · rw [if_neg h80]
      have hpos : 0 < (slugBase (strippedFor n)).length := List.length_pos.mpr h0
      exact ⟨all_slugBase _, by omega, by omega⟩

theorem extMatch_props (name run : Str) (h : extMatch name = some run) :
    run.all isAlnumCI = true ∧ 2 ≤ run.length ∧ run.length ≤ 5 := by
  simp only [extMatch] at h
  split at h
  · next hcond =>
      injection h with hrun
      subst hrun
      refine ⟨?_, by simpa using hcond.1, by simpa using hcond.2.1⟩
      rw [List.all_eq_true]
      intro x hx
      exact List.mem_takeWhile_imp (List.mem_reverse.mp hx)
  · exact absurd h (by simp)

theorem lower_alnum (n : Nat) (h : isAlnumCI n = true) : isLowerAlnum (jsToLower n) = true := by
  simp only [isAlnumCI, Bool.or_eq_true, Bool.and_eq_true, decide_eq_true_eq] at h
  unfold jsToLower
  split
  · simp only [isLowerAlnum, Bool.or_eq_true, Bool.and_eq_true, decide_eq_true_eq]
    omega
  · simp only [isLowerAlnum, Bool.or_eq_true, Bool.and_eq_true, decide_eq_true_eq]
    omega

theorem lowerAlnum_safe (n : Nat) (h : isLowerAlnum n = true) : isSafeChar n = true := by
  simp only [isLowerAlnum, Bool.or_eq_true, Bool.and_eq_true, decide_eq_true_eq] at h
  simp only [isSafeChar, isAlnumCI, Bool.or_eq_true, Bool.and_eq_true, decide_eq_true_eq,
    beq_iff_eq]
  omega

theorem jsToLower_fix (n : Nat) (h : isLowerAlnum n = true) : jsToLower n = n := by
  simp only [isLowerAlnum, Bool.or_eq_true, Bool.and_eq_true, decide_eq_true_eq] at h
  unfold jsToLower
  rw [if_neg (by omega)]

theorem map_lower_fix (e : Str) (h : e.all isLowerAlnum = true) : e.map jsToLower = e := by
  have hpt : ∀ x ∈ e, jsToLower x = x := fun x hx => jsToLower_fix x (List.all_eq_true.mp h x hx)
  calc e.map jsToLower = e.map id := List.map_congr_left hpt
    _ = e := List.map_id e

theorem extFor_shape (name : Str) :
    ∃ e : Str, extFor name (str ".jpg") = 46 :: e ∧ e.all isLowerAlnum = true ∧
      2 ≤ e.length ∧ e.length ≤ 5 ∧ e ≠ str "heic" ∧ e ≠ str "heif" ∧ e ≠ str "heifs" := by
  simp only [extFor]
  cases hm : extMatch name with
  | none =>
      refine ⟨str "jpg", ?_⟩
      decide
  | some run =>
      have hp := extMatch_props name run hm
      by_cases hg : (46 :: run.map jsToLower) = str ".heic" ∨
          (46 :: run.map jsToLower) = str ".heif" ∨ (46 :: run.map jsToLower) = str ".heifs"
      · rw [if_pos hg]
        refine ⟨str "jpg", ?_⟩
        decide
      · rw [if_neg hg]
        refine ⟨run.map jsToLower, rfl, ?_, ?_, ?_, ?_, ?_, ?_⟩
        · rw [List.all_eq_true]
          intro x hx
          obtain ⟨y, hy, rfl⟩ := List.mem_map.mp hx
          exact lower_alnum y (List.all_eq_true.mp hp.1 y hy)
        · rw [List.length_map]; exact hp.2.1
        · rw [List.length_map]; exact hp.2.2
        · intro he
          exact hg (Or.inl (by rw [he]; decide))
        · intro he
          exact hg (Or.inr (Or.inl (by rw [he]; decide)))
        · intro he
          exact hg (Or.inr (Or.inr (by rw [he]; decide)))

theorem sf_safe (name : Str) : (SAFE_FILENAME name (str ".jpg")).all isSafeChar = true := by
  obtain ⟨e, he, hall, h2, h5, _, _, _⟩ := extFor_shape (normName name (str ".jpg"))
  obtain ⟨ball, hb1, hb80⟩ := baseFor_props (normName name (str ".jpg"))
  rw [SAFE_FILENAME, he]
  rw [List.all_eq_true]
  intro x hx
  rcases List.mem_append.mp hx with hb | hext
  · exact List.all_eq_true.mp ball x hb
  · rcases List.mem_cons.mp hext with rfl | hxe
    · decide
    · exact lowerAlnum_safe x (List.all_eq_true.mp hall x hxe)

theorem sf_len (name : Str) :
    1 ≤ (SAFE_FILENAME name (str ".jpg")).length ∧
    (SAFE_FILENAME name (str ".jpg")).length ≤ 86 := by
  obtain ⟨e, he, hall, h2, h5, _, _, _⟩ := extFor_shape (normName name (str ".jpg"))
  obtain ⟨ball, hb1, hb80⟩ := baseFor_props (normName name (str ".jpg"))
  rw [SAFE_FILENAME, he]
  simp only [List.length_append, List.length_cons]
  omega

/-- Claim C1, counterexample: the claimed lowercase-only pattern with
length bound 84 fails on the code.  `SAFE_FILENAME` keeps uppercase
letters (the slug regexes carry the `i` flag and nothing lower-cases the
base), so `A.jpg` sanitizes to itself, outside `[a-z0-9\-_.]`; and an
81-unit base with a 5-character extension yields an 86-unit output. -/
theorem c1_counterexample :
    SAFE_FILENAME (str "A.jpg") (str ".jpg") = str "A.jpg" ∧
    matchesClaimedPattern (SAFE_FILENAME (str "A.jpg") (str ".jpg")) = false ∧
    (SAFE_FILENAME longName (str ".jpg")).length = 86 ∧
    matchesClaimedPattern (SAFE_FILENAME longName (str ".jpg")) = false := by
  decide

/-- Claim C1 as amended: for every input name the sanitizer's output
matches the case-insensitive pattern of letters (either case), digits and
`-`, `_`, `.`, with total length between 1 and 86 (base up to 80 units
plus a dot and a 2–5 character extension). -/
theorem c1_amended (name : Str) :
    (SAFE_FILENAME name (str ".jpg")).all isSafeChar = true ∧
    1 ≤ (SAFE_FILENAME name (str ".jpg")).length ∧
    (SAFE_FILENAME name (str ".jpg")).length ≤ 86 :=
  ⟨sf_safe name, (sf_len name).1, (sf_len name).2⟩

/-- Claim C9 (implicit): every sanitized filename is non-empty and ends in
a dot followed by 2–5 lowercase alphanumerics, and that extension is never
`heic`, `heif` or `heifs`. -/
theorem c9_extension_shape (name : Str) :
    ∃ b e : Str, SAFE_FILENAME name (str ".jpg") = b ++ 46 :: e ∧ 1 ≤ b.length ∧
      e.all isLowerAlnum = true ∧ 2 ≤ e.length ∧ e.length ≤ 5 ∧
      e ≠ str "heic" ∧ e ≠ str "heif" ∧ e ≠ str "heifs" := by
  obtain ⟨e, he, hall, h2, h5, hc, hf, hs⟩ := extFor_shape (normName name (str ".jpg"))
  obtain ⟨_, hb1, _⟩ := baseFor_props (normName name (str ".jpg"))
  exact ⟨baseFor (normName name (str ".jpg")), e, by rw [SAFE_FILENAME, he], hb1,
    hall, h2, h5, hc, hf, hs⟩

theorem lowerAlnum_alnum (n : Nat) (h : isLowerAlnum n = true) : isAlnumCI n = true := by
  simp only [isLowerAlnum, Bool.or_eq_true, Bool.and_eq_true, decide_eq_true_eq] at h
  simp only [isAlnumCI, Bool.or_eq_true, Bool.and_eq_true, decide_eq_true_eq]
  omega

theorem safe_no_slash (x : Nat) (h : isSafeChar x = true) : x ≠ 47 ∧ x ≠ 92 := by
  simp only [isSafeChar, isAlnumCI, Bool.or_eq_true, Bool.and_eq_true, decide_eq_true_eq,
    beq_iff_eq] at h
  omega

theorem afterLast_eq_self (sep : Nat) (s : Str) (h : ∀ c ∈ s, c ≠ sep) :
    afterLast sep s = s := by
  rw [afterLast, List.takeWhile_eq_self_iff.mpr ?_, List.reverse_reverse]
  intro x hx
  simp [h x (List.mem_reverse.mp hx)]

theorem normName_fix (o : Str) (hne : o ≠ []) (hall : o.all isSafeChar = true) :
    normName o (str ".jpg") = o := by
  have h47 : ∀ c ∈ o, c ≠ 47 := fun c hc => (safe_no_slash c (List.all_eq_true.mp hall c hc)).1
  have h92 : ∀ c ∈ o, c ≠ 92 := fun c hc => (safe_no_slash c (List.all_eq_true.mp hall c hc)).2
  rw [normName, if_neg hne, afterLast_eq_self 47 o h47, afterLast_eq_self 92 o h92]

theorem takeWhile_append_stop (p : Nat → Bool) (xs ys : Str) (y : Nat)
    (hxs : ∀ x ∈ xs, p x = true) (hy : p y = false) :
    (xs ++ y :: ys).takeWhile p = xs := by
  induction xs with
  | nil => simp [List.takeWhile_cons, hy]
  | cons a t ih =>
      simp only [List.cons_append, List.takeWhile_cons]
      rw [if_pos (by simp [hxs a (by simp)]), ih (fun x hx => hxs x (by simp [hx]))]

theorem extMatch_append (B e : Str) (hall : e.all isLowerAlnum = true)
    (h2 : 2 ≤ e.length) (h5 : e.length ≤ 5) : extMatch (B ++ 46 :: e) = some e := by
  have hrev : (B ++ 46 :: e).reverse = e.reverse ++ 46 :: B.reverse := by
    simp [List.reverse_append]
  have htw : ((B ++ 46 :: e).reverse).takeWhile isAlnumCI = e.reverse := by
    rw [hrev]
    apply takeWhile_append_stop
    · intro x hx
      exact lowerAlnum_alnum x (List.all_eq_true.mp hall x (List.mem_reverse.mp hx))
    · decide
  have hdrop : ((B ++ 46 :: e).reverse).drop e.length = 46 :: B.reverse := by
    rw [hrev]
    have := List.drop_left e.reverse (46 :: B.reverse)
    rwa [List.length_reverse] at this
  simp only [extMatch, htw, List.length_reverse, hdrop]
  rw [if_pos ⟨h2, h5, rfl⟩, List.reverse_reverse]

theorem strippedFor_append (B e : Str) (hall : e.all isLowerAlnum = true)
    (h2 : 2 ≤ e.length) (h5 : e.length ≤ 5) : strippedFor (B ++ 46 :: e) = B := by
  simp only [strippedFor, extMatch_append B e hall h2 h5]
  have hrev : (B ++ 46 :: e).reverse = (e.reverse ++ [46]) ++ B.reverse := by
    simp [List.reverse_append]
  rw [hrev]
  have hd := List.drop_left (e.reverse ++ [46]) B.reverse
  have hlen : (e.reverse ++ [46]).length = e.length + 1 := by
    simp [List.length_append, List.length_reverse]
  rw [hlen] at hd
  rw [hd, List.reverse_reverse]

theorem extFor_append (B e : Str) (hall : e.all isLowerAlnum = true)
    (h2 : 2 ≤ e.length) (h5 : e.length ≤ 5)
    (hc : e ≠ str "heic") (hf : e ≠ str "heif") (hs : e ≠ str "heifs") :
    extFor (B ++ 46 :: e) (str ".jpg") = 46 :: e := by
  simp only [extFor, extMatch_append B e hall h2 h5, map_lower_fix e hall]
  rw [if_neg]
  intro hg
  rcases hg with hg | hg | hg
  · exact hc (by injection hg)
  · exact hf (by injection hg)
  · exact hs (by injection hg)

theorem afterLast_len (sep : Nat) (s : Str) : (afterLast sep s).length ≤ s.length := by
  rw [afterLast, List.length_reverse]
  calc (s.reverse.takeWhile fun c => c ≠ sep).length ≤ s.reverse.length :=
        (List.takeWhile_sublist _).length_le
    _ = s.length := List.length_reverse s

theorem strippedFor_len (n : Str) : (strippedFor n).length ≤ n.length := by
  rw [strippedFor]
  cases hm : extMatch n with
  | none => exact le_refl _
  | some run =>
      rw [List.length_reverse]
      calc (n.reverse.drop (run.length + 1)).length ≤ n.reverse.length :=
            (List.drop_sublist _ _).length_le
        _ = n.length := List.length_reverse n

theorem normName_len (name : Str) (h : name.length ≤ 80) :
    (normName name (str ".jpg")).length ≤ 80 := by
  rw [normName]
  refine le_trans (le_trans (afterLast_len 92 _) (afterLast_len 47 _)) ?_
  by_cases h0 : name = []
  · rw [if_pos h0]; decide
  · rw [if_neg h0]; exact h

theorem baseFor_no_trunc (n : Str) (h : (slugBase (strippedFor n)).length ≤ 80) :
    baseFor n = if slugBase (strippedFor n) = [] then str "upload"
      else slugBase (strippedFor n) := by
  simp only [baseFor]
  by_cases h0 : slugBase (strippedFor n) = []
  · rw [if_pos h0]
    decide
  · rw [if_neg h0]
    rw [if_neg (by omega)]

theorem mime_allowlist (mt : Str) :
    SAFE_IMAGE_MIME mt = str "image/jpeg" ∨ SAFE_IMAGE_MIME mt = str "image/webp" ∨
    SAFE_IMAGE_MIME mt = str "image/png" ∨ SAFE_IMAGE_MIME mt = str "image/gif" ∨
    SAFE_IMAGE_MIME mt = str "image/bmp" ∨ SAFE_IMAGE_MIME mt = str "image/tiff" := by
  simp only [SAFE_IMAGE_MIME]
  repeat' split
  all_goals simp

theorem mime_idem (mt : Str) : SAFE_IMAGE_MIME (SAFE_IMAGE_MIME mt) = SAFE_IMAGE_MIME mt := by
  rcases mime_allowlist mt with h | h | h | h | h | h <;> rw [h] <;> decide

theorem sf_idem (name : Str) (h : name.length ≤ 80) :
    SAFE_FILENAME (SAFE_FILENAME name (str ".jpg")) (str ".jpg") =
    SAFE_FILENAME name (str ".jpg") := by
  obtain ⟨e, he, hall, h2, h5, hc, hf, hs⟩ := extFor_shape (normName name (str ".jpg"))
  have hb1len : (slugBase (strippedFor (normName name (str ".jpg")))).length ≤ 80 :=
    le_trans (slugBase_len _) (le_trans (strippedFor_len _) (normName_len name h))
  have hB : baseFor (normName name (str ".jpg")) =
      if slugBase (strippedFor (normName name (str ".jpg"))) = [] then str "upload"
      else slugBase (strippedFor (normName name (str ".jpg"))) := baseFor_no_trunc _ hb1len
  have hslugB : slugBase (baseFor (normName name (str ".jpg"))) =
      baseFor (normName name (str ".jpg")) := by
    rw [hB]
    by_cases h0 : slugBase (strippedFor (normName name (str ".jpg"))) = []
    · rw [if_pos h0]; decide
    · rw [if_neg h0]; exact slugBase_idem _
  have hBlen : (baseFor (normName name (str ".jpg"))).length ≤ 80 := by
    rw [hB]
    by_cases h0 : slugBase (strippedFor (normName name (str ".jpg"))) = []
    · rw [if_pos h0]; decide
    · rw [if_neg h0]; exact hb1len
  have hBne : baseFor (normName name (str ".jpg")) ≠ [] := by
    have := (baseFor_props (normName name (str ".jpg"))).2.1
    intro hcon
    rw [hcon] at this
    simp at this
  have ho : SAFE_FILENAME name (str ".jpg") =
      baseFor (normName name (str ".jpg")) ++ 46 :: e := by
    rw [SAFE_FILENAME, he]
  have hone : SAFE_FILENAME name (str ".jpg") ≠ [] := by
    rw [ho]; simp
  have hnorm : normName (SAFE_FILENAME name (str ".jpg")) (str ".jpg") =
      SAFE_FILENAME name (str ".jpg") := normName_fix _ hone (sf_safe name)
  rw [SAFE_FILENAME, hnorm, ho]
  rw [extFor_append _ e hall h2 h5 hc hf hs]
  have hstr : strippedFor (baseFor (normName name (str ".jpg")) ++ 46 :: e) =
      baseFor (normName name (str ".jpg")) := strippedFor_append _ e hall h2 h5
  have hbase2 : baseFor (baseFor (normName name (str ".jpg")) ++ 46 :: e) =
      baseFor (normName name (str ".jpg")) := by
    rw [baseFor_no_trunc _ (by rw [hstr, hslugB]; exact hBlen)]
    rw [hstr, hslugB, if_neg hBne]
  rw [hbase2]

theorem jsToLower_idem (n : Nat) : jsToLower (jsToLower n) = jsToLower n := by
  simp only [jsToLower]
  by_cases h : 65 ≤ n ∧ n ≤ 90
  · rw [if_pos h, if_neg (by omega)]
  · rw [if_neg h, if_neg h]

theorem mime_lower_inv (mt : Str) :
    SAFE_IMAGE_MIME (mt.map jsToLower) = SAFE_IMAGE_MIME mt := by
  by_cases h0 : mt = []
  · rw [h0]; rfl
  · have hne : mt.map jsToLower ≠ [] := by simp [h0]
    have hmm : (mt.map jsToLower).map jsToLower = mt.map jsToLower := by
      rw [List.map_map]
      exact List.map_congr_left (fun x _ => jsToLower_idem x)
    simp only [SAFE_IMAGE_MIME]
    rw [if_neg hne, if_neg h0, hmm]

/-- Claim C4, counterexample: `image/apng` is image-prefixed, is not an
HEIC/HEIF type and is not one of the five allow-listed types, so the claim
says the sanitizer should return `image/jpeg` — but the code matches by
substring and returns `image/png`. -/
theorem c4_counterexample :
    SAFE_IMAGE_MIME (str "image/apng") = str "image/png" ∧
    SAFE_IMAGE_MIME (str "image/apng") ≠ str "image/jpeg" ∧
    str "image/apng" ≠ str "image/webp" ∧ str "image/apng" ≠ str "image/png" ∧
    str "image/apng" ≠ str "image/gif" ∧ str "image/apng" ≠ str "image/bmp" ∧
    str "image/apng" ≠ str "image/tiff" := by
  decide

/-- Claim C4 as amended: `SAFE_IMAGE_MIME` lower-cases its input (it is
invariant under pre-lower-casing), always lands in the six-type allow
list, sends heic/heif to `image/jpeg`, passes the five allow-listed
types through verbatim, sends `text/plain` and the empty string to
`image/jpeg` — but a type containing an allow-listed substring (such as
`image/apng`) maps to that allow-listed type rather than to `image/jpeg`:
matching is by substring, not by exact allow-list membership. -/
theorem c4_amended :
    (∀ mt : Str,
      SAFE_IMAGE_MIME mt = str "image/jpeg" ∨ SAFE_IMAGE_MIME mt = str "image/webp" ∨
      SAFE_IMAGE_MIME mt = str "image/png" ∨ SAFE_IMAGE_MIME mt = str "image/gif" ∨
      SAFE_IMAGE_MIME mt = str "image/bmp" ∨ SAFE_IMAGE_MIME mt = str "image/tiff") ∧
    (∀ mt : Str, SAFE_IMAGE_MIME (mt.map jsToLower) = SAFE_IMAGE_MIME mt) ∧
    SAFE_IMAGE_MIME (str "image/heic") = str "image/jpeg" ∧
    SAFE_IMAGE_MIME (str "image/heif") = str "image/jpeg" ∧
    SAFE_IMAGE_MIME (str "image/webp") = str "image/webp" ∧
    SAFE_IMAGE_MIME (str "image/png") = str "image/png" ∧
    SAFE_IMAGE_MIME (str "image/gif") = str "image/gif" ∧
    SAFE_IMAGE_MIME (str "image/bmp") = str "image/bmp" ∧
    SAFE_IMAGE_MIME (str "image/tiff") = str "image/tiff" ∧
    SAFE_IMAGE_MIME (str "text/plain") = str "image/jpeg" ∧
    SAFE_IMAGE_MIME (str "") = str "image/jpeg" ∧
    SAFE_IMAGE_MIME (str "image/apng") = str "image/png" :=
  ⟨mime_allowlist, mime_lower_inv, by decide, by decide, by decide, by decide, by decide,
    by decide, by decide, by decide, by decide, by decide⟩

/-- Claim C5, counterexample: sanitization is not idempotent.  A name
whose slugified base has 81 units is truncated to 80, which can leave a
trailing dash; re-sanitizing trims that dash, shrinking the name. -/
theorem c5_counterexample :
    SAFE_FILENAME (SAFE_FILENAME dashName (str ".jpg")) (str ".jpg") ≠
    SAFE_FILENAME dashName (str ".jpg") := by
  decide

/-- Claim C5 as amended: MIME sanitization is always a fixed point, and
filename sanitization is a fixed point for every name of length at most
80 — whenever the 80-unit base truncation does not fire.  (Truncation can
cut the base so it ends in a separator, which a second pass trims.) -/
theorem c5_amended (mt name : Str) (h : name.length ≤ 80) :
    SAFE_IMAGE_MIME (SAFE_IMAGE_MIME mt) = SAFE_IMAGE_MIME mt ∧
    SAFE_FILENAME (SAFE_FILENAME name (str ".jpg")) (str ".jpg") =
      SAFE_FILENAME name (str ".jpg") :=
  ⟨mime_idem mt, sf_idem name h⟩

/-- Claim C5, witness: the amended idempotence applied at a concrete
MIME/filename pair. -/
theorem c5_witness :
    (str "My Photo!!.HEIC").length ≤ 80 ∧
    (SAFE_IMAGE_MIME (SAFE_IMAGE_MIME (str "image/heic")) = SAFE_IMAGE_MIME (str "image/heic") ∧
     SAFE_FILENAME (SAFE_FILENAME (str "My Photo!!.HEIC") (str ".jpg")) (str ".jpg") =
       SAFE_FILENAME (str "My Photo!!.HEIC") (str ".jpg")) :=
  ⟨by decide, c5_amended (str "image/heic") (str "My Photo!!.HEIC") (by decide)⟩

theorem pmFold_rename (parts : List FilePart) (f : FilePart → Str) (acc : Parsed) :
    (parts.map fun p => { p with fieldName := f p }).foldl pmStep acc =
    parts.foldl pmStep acc := by
  induction parts generalizing acc with
  | nil => rfl
  | cons p t ih => simp only [List.map_cons, List.foldl_cons]; exact ih _

theorem pmFold_path (parts : List FilePart) (acc : Parsed) (hne : parts ≠ []) :
    (parts.foldl pmStep acc).filepath = str "tmp-scratch" := by
  induction parts generalizing acc with
  | nil => exact absurd rfl hne
  | cons p t ih =>
      cases t with
      | nil => rfl
      | cons q r => exact ih _ (by simp)

theorem pmFold_last (parts : List FilePart) (acc : Parsed) (hne : parts ≠ []) :
    some (parts.foldl pmStep acc).filename = parts.getLast?.map FilePart.filename ∧
    some (parts.foldl pmStep acc).mimetype = parts.getLast?.map FilePart.mimeType := by
  induction parts generalizing acc with
  | nil => exact absurd rfl hne
  | cons p t ih =>
      cases t with
      | nil => exact ⟨rfl, rfl⟩
      | cons q r =>
          rw [List.foldl_cons, List.getLast?_cons_cons]
          exact ih _ (by simp)

theorem pmFold_size (parts : List FilePart) (acc : Parsed) :
    (parts.foldl pmStep acc).size = acc.size + (parts.map FilePart.contentLen).sum := by
  induction parts generalizing acc with
  | nil => simp
  | cons p t ih =>
      rw [List.foldl_cons, ih]
      simp [pmStep]
      omega

/-- Claim C7, counterexample: the parse accepts a body whose only file
part is bound to field name `avatar`, not `file`, and the pipeline then
proceeds all the way to a 200 — the field name is never checked, so such
a body is not treated as a missing file part. -/
theorem c7_counterexample :
    (∀ q ∈ avatarParts, q.fieldName ≠ str "file") ∧
    (parseMultipart avatarParts).filepath ≠ [] ∧
    (handler evPost (Except.ok (parseMultipart avatarParts)) oracleOk).call1 ≠ none ∧
    (handler evPost (Except.ok (parseMultipart avatarParts)) oracleOk).response.statusCode
      = 200 := by
  decide

/-- Claim C7 as amended: the multipart parse ignores field names entirely —
renaming every part's field leaves the parse unchanged; the metadata fed
into the pipeline comes from the LAST file part whatever its field name,
the byte counter sums all file parts, and any file part at all makes the
scratch path non-empty. -/
theorem c7_amended (parts : List FilePart) (f : FilePart → Str) (hne : parts ≠ []) :
    parseMultipart (parts.map fun p => { p with fieldName := f p }) = parseMultipart parts ∧
    (parseMultipart parts).filepath = str "tmp-scratch" ∧
    some (parseMultipart parts).filename = parts.getLast?.map FilePart.filename ∧
    some (parseMultipart parts).mimetype = parts.getLast?.map FilePart.mimeType ∧
    (parseMultipart parts).size = (parts.map FilePart.contentLen).sum := by
  refine ⟨pmFold_rename parts f _, pmFold_path parts _ hne,
    (pmFold_last parts _ hne).1, (pmFold_last parts _ hne).2, ?_⟩
  rw [parseMultipart, pmFold_size]
  simp

/-- Claim C7, witness: the amended parse characterization applied to the
concrete `avatar` body. -/
theorem c7_witness :
    parseMultipart (avatarParts.map fun p => { p with fieldName := str "renamed" }) =
      parseMultipart avatarParts ∧
    (parseMultipart avatarParts).filepath = str "tmp-scratch" ∧
    some (parseMultipart avatarParts).filename = avatarParts.getLast?.map FilePart.filename ∧
    some (parseMultipart avatarParts).mimetype = avatarParts.getLast?.map FilePart.mimeType ∧
    (parseMultipart avatarParts).size = (avatarParts.map FilePart.contentLen).sum :=
  c7_amended avatarParts (fun _ => str "renamed") (by decide)

/-- Claim C8 (confirmed): any request whose method is neither `POST` nor
`OPTIONS` is answered 405 with body `error: Method not allowed`, with no
remote call attempted and no unlink. -/
theorem c8_method_gate (ev : Event) (parse : Except Str Parsed) (o : Oracle)
    (h1 : ev.httpMethod ≠ str "OPTIONS") (h2 : ev.httpMethod ≠ str "POST") :
    handler ev parse o =
      { response := { statusCode := 405, body := some (.errorMsg (str "Method not allowed")) },
        call1 := none, call2 := none, call3 := none, unlinked := false } := by
  unfold handler
  rw [if_neg h1, if_pos h2]

/-- Claim C8, witness: the method gate applied to a concrete GET request. -/
theorem c8_witness :
    handler evGet (Except.ok parsedOk) oracleOk =
      { response := { statusCode := 405, body := some (.errorMsg (str "Method not allowed")) },
        call1 := none, call2 := none, call3 := none, unlinked := false } :=
  c8_method_gate evGet (Except.ok parsedOk) oracleOk (by decide) (by decide)

/-- Claim C2, counterexample: when the binary POST is refused with HTTP
403, the handler returns 500 (with the status in the message) but does
NOT delete the scratch file — `unlinkSync` sits on the success path only
(src line 158), so failure exits leave the file behind. -/
theorem c2_counterexample :
    (handler evPost (Except.ok parsedOk) oracle403).response.statusCode = 500 ∧
    (handler evPost (Except.ok parsedOk) oracle403).call2 ≠ none ∧
    (handler evPost (Except.ok parsedOk) oracle403).call3 = none ∧
    (handler evPost (Except.ok parsedOk) oracle403).unlinked = false := by
  decide

/-- Claim C2 as amended: the scratch file is deleted exactly on the
success path — `unlinked` holds iff the run is a POST that reached the
200 response; every failure exit (including a non-success binary POST)
returns without deleting it. -/
theorem c2_amended (ev : Event) (parse : Except Str Parsed) (o : Oracle) :
    (handler ev parse o).unlinked = true ↔
      ((handler ev parse o).response.statusCode = 200 ∧ ev.httpMethod = str "POST") := by
  unfold handler
  repeat' split
  all_goals simp_all [failWith]
  all_goals intro h
  all_goals simp_all
  all_goals exact absurd h (by decide)

/-- Claim C3, counterexample: a POST whose multipart body has no file part
is answered with status 500 — a server-error status, not the claimed 4xx
client-error class. -/
theorem c3_counterexample :
    (handler evPost (Except.ok parsedNoFile) oracleOk).response.statusCode = 500 ∧
    ¬ (400 ≤ (handler evPost (Except.ok parsedNoFile) oracleOk).response.statusCode ∧
        (handler evPost (Except.ok parsedNoFile) oracleOk).response.statusCode < 500) := by
  decide

/-- Claim C3 as amended: on a POST with the environment set, a missing
file part or an unparseable multipart body yields a 500 response with a
descriptive error body, and no remote call is ever attempted. -/
theorem c3_amended (ev : Event) (parse : Except Str Parsed) (o : Oracle) (e : Str) (p : Parsed)
    (hm : ev.httpMethod = str "POST") (hs : ev.hasStore = true) (ht : ev.hasToken = true)
    (h : parse = Except.error e ∨ (parse = Except.ok p ∧ p.filepath = [])) :
    (handler ev parse o).call1 = none ∧ (handler ev parse o).call2 = none ∧
    (handler ev parse o).call3 = none ∧
    (handler ev parse o).response.statusCode = 500 ∧
    ∃ m : Str, (handler ev parse o).response.body = some (.errorMsg m) := by
  have hno : ¬ ev.httpMethod = str "OPTIONS" := by rw [hm]; decide
  have hp2 : ¬ ev.httpMethod ≠ str "POST" := by simp [hm]
  have henv : ¬ ¬ (ev.hasStore ∧ ev.hasToken) := by simp [hs, ht]
  rcases h with h | ⟨h, hfp⟩
  · subst h
    unfold handler
    rw [if_neg hno, if_neg hp2, if_neg henv]
    simp [failWith]
  · subst h
    unfold handler
    rw [if_neg hno, if_neg hp2, if_neg henv]
    simp [failWith, hfp]

/-- Claim C3, witness: the amended statement applied to the concrete
no-file-part parse. -/
theorem c3_witness :
    (handler evPost (Except.ok parsedNoFile) oracleOk).call1 = none ∧
    (handler evPost (Except.ok parsedNoFile) oracleOk).call2 = none ∧
    (handler evPost (Except.ok parsedNoFile) oracleOk).call3 = none ∧
    (handler evPost (Except.ok parsedNoFile) oracleOk).response.statusCode = 500 ∧
    ∃ m : Str, (handler evPost (Except.ok parsedNoFile) oracleOk).response.body =
      some (.errorMsg m) :=
  c3_amended evPost (Except.ok parsedNoFile) oracleOk [] parsedNoFile
    (by decide) (by decide) (by decide) (Or.inr ⟨rfl, rfl⟩)

/-- Claim C6, counterexample: when the staging user error's message
matches the catch block's regex, the 500 body carries the rewritten
friendly hint, not the remote error message the claim specifies. -/
theorem c6_counterexample :
    (handler evPost (Except.ok parsedOk) oracleUE).response.body ≠
      some (.errorMsg patternMsg) ∧
    (handler evPost (Except.ok parsedOk) oracleUE).response.body =
      some (.errorMsg (str "Shopify rejected the upload data format (likely MIME/filename). Try JPG/PNG and a simple filename.")) ∧
    (handler evPost (Except.ok parsedOk) oracleUE).call2 = none ∧
    (handler evPost (Except.ok parsedOk) oracleUE).call3 = none := by
  decide

/-- Claim C6 as amended: a staging user error or missing staged target
aborts with 500 and neither the binary POST nor the finalize call is
attempted; the body carries the remote error message — except that a
message matching "did not match the expected pattern" is replaced by the
fixed friendly hint, and a missing target with no user error (or a user
error with an empty message) yields `Failed stagedUploadsCreate`. -/
theorem c6_amended (ev : Event) (o : Oracle) (p : Parsed) (s : StagedResp)
    (hm : ev.httpMethod = str "POST") (hs : ev.hasStore = true) (ht : ev.hasToken = true)
    (hfp : ¬ p.filepath = []) (hst : o.staged = Except.ok s)
    (h : s.stagedTargets = [] ∨ s.userErrors ≠ []) :
    (handler ev (Except.ok p) o).response.statusCode = 500 ∧
    (handler ev (Except.ok p) o).call2 = none ∧
    (handler ev (Except.ok p) o).call3 = none ∧
    (handler ev (Except.ok p) o).response.body =
      some (.errorMsg (rewriteError (stagedErrMsg s.userErrors.head?))) := by
  have hno : ¬ ev.httpMethod = str "OPTIONS" := by rw [hm]; decide
  have hp2 : ¬ ev.httpMethod ≠ str "POST" := by simp [hm]
  have henv : ¬ ¬ (ev.hasStore ∧ ev.hasToken) := by simp [hs, ht]
  unfold handler
  rw [if_neg hno, if_neg hp2, if_neg henv]
  rcases s with ⟨ts, us⟩
  cases ts <;> cases us <;> simp_all [failWith]

/-- Claim C6, witness: the amended statement applied to the concrete
pattern-matching user error. -/
theorem c6_witness :
    (handler evPost (Except.ok parsedOk) oracleUE).response.statusCode = 500 ∧
    (handler evPost (Except.ok parsedOk) oracleUE).call2 = none ∧
    (handler evPost (Except.ok parsedOk) oracleUE).call3 = none ∧
    (handler evPost (Except.ok parsedOk) oracleUE).response.body =
      some (.errorMsg (rewriteError (stagedErrMsg ueStaged.userErrors.head?))) :=
  c6_amended evPost oracleUE parsedOk ueStaged (by decide) (by decide) (by decide)
    (by decide) rfl (Or.inr (by decide))

/-- Claim C10 (confirmed, implicit): wherever the run uses a filename or
MIME type — the staging input, the binary POST's `file` field, the
finalize input's `fileName` and `alt`, and the 200 response — it uses
exactly the sanitized values derived from the parsed metadata; the
caller's original values are never forwarded. -/
theorem c10_consistency (ev : Event) (p : Parsed) (o : Oracle) :
    (∀ c1 ∈ (handler ev (Except.ok p) o).call1,
        c1.filename = SAFE_FILENAME p.filename (str ".jpg") ∧
        c1.mimeType = SAFE_IMAGE_MIME p.mimetype) ∧
    (∀ c2 ∈ (handler ev (Except.ok p) o).call2,
        c2.fileFieldName = str "file" ∧
        c2.fileName = SAFE_FILENAME p.filename (str ".jpg") ∧
        c2.fileType = SAFE_IMAGE_MIME p.mimetype) ∧
    (∀ c3 ∈ (handler ev (Except.ok p) o).call3,
        c3.alt = SAFE_FILENAME p.filename (str ".jpg") ∧
        c3.fileName = SAFE_FILENAME p.filename (str ".jpg")) ∧
    (∀ u i fn mt, (handler ev (Except.ok p) o).response.body =
        some (.success u i fn mt) →
        fn = SAFE_FILENAME p.filename (str ".jpg") ∧ mt = SAFE_IMAGE_MIME p.mimetype) := by
  unfold handler
  repeat' split
  all_goals simp_all [failWith]

/-- Claim C10, witness: the consistency theorem instantiated on the
concrete successful run — the binary POST's file field carries the
sanitized name and type. -/
theorem c10_witness :
    ((handler evPost (Except.ok parsedOk) oracleOk).call2.map PostReq.fileName) =
      some (SAFE_FILENAME parsedOk.filename (str ".jpg")) ∧
    ((handler evPost (Except.ok parsedOk) oracleOk).call2.map PostReq.fileFieldName) =
      some (str "file") := by
  have h := (c10_consistency evPost parsedOk oracleOk).2.1
  cases hc : (handler evPost (Except.ok parsedOk) oracleOk).call2 with
  | none => exact absurd hc (by decide)
  | some c2 =>
      have hp := h c2 (by rw [hc]; exact rfl)
      simp [hp.1, hp.2.1]

end PuzzleUpload
